import Mathlib

/-!
Verification of the tui-counters terminal application.

Shallow embedding of `src/app.rs`: the data model (`Counter`, `CounterList`,
`InputMode`, `SaveState`, `App`), the key-event dispatcher `App::handle_key`,
the persistence entry point `App::save`, and the event loop `App::run`.

Modelling conventions:
  * Rust `i64` counts are `Int` values combined through `i64Add` / `i64Sub`,
    which wrap modulo 2 to the 64 at the signed boundary (the release-profile
    two's-complement semantics of Rust integer arithmetic; `as i64` casts are
    `u64ToI64`).
  * `usize` values (selection indices, cursors) are `Nat` with saturating
    subtraction; `USIZE_MAX` stands for the largest usize.
  * Rust panics (`expect` on a failed parse, `Vec::remove` out of range) are
    modelled by returning `none`.
  * The persistence port and the terminal are external collaborators: a save
    attempt's outcome is an `Except String Unit` supplied by the environment,
    and each attempted write of the snapshot is recorded as a pair of the
    target path and the serialized counter list.  Rendering only draws and is
    not part of the key-handling semantics modelled here.
  * The text buffers come from the `tui_input` crate: a character list plus a
    cursor, with the crossterm backend's insert / backspace / delete / cursor
    moves.
-/

deriving instance DecidableEq for Except

namespace TuiCounters

/-- Largest value of Rust `usize` (64-bit target). -/
def USIZE_MAX : Nat := 2 ^ 64 - 1

/-- Wrap an unbounded integer into the signed 64-bit range
`[-2^63, 2^63)`, i.e. two's-complement reduction. -/
def wrapI64 (x : Int) : Int := (x + 2 ^ 63) % 2 ^ 64 - 2 ^ 63

/-- Rust `i64` addition (release-profile wrapping semantics). -/
def i64Add (a b : Int) : Int := wrapI64 (a + b)

/-- Rust `i64` subtraction (release-profile wrapping semantics). -/
def i64Sub (a b : Int) : Int := wrapI64 (a - b)

/-- Rust `v as i64` for a `u64` value `v < 2^64`: two's-complement
reinterpretation. -/
def u64ToI64 (v : Nat) : Int := if v < 2 ^ 63 then (v : Int) else (v : Int) - 2 ^ 64

/-- Rust `u64::from_str`: optional leading plus sign, then one or more ASCII
decimal digits, error (`none`) on an empty digit string, on any non-ASCII-digit
character, and on overflow past `u64::MAX`. -/
def u64FromStr (cs : List Char) : Option Nat :=
  let ds := match cs with
    | '+' :: rest => rest
    | _ => cs
  match ds with
  | [] => none
  | _ =>
    ds.foldl (fun acc c =>
      match acc with
      | none => none
      | some n =>
        if c.isDigit then
          if n * 10 + (c.toNat - 48) < 2 ^ 64 then some (n * 10 + (c.toNat - 48)) else none
        else none) (some 0)

/-- Model of Rust `char::is_numeric` (Unicode general categories Nd, Nl, No).
The full Unicode table is large; this embedding covers the ASCII digits plus
representative non-ASCII members (Arabic-Indic digits U+0660..U+0669, which are
Nd, and the vulgar fractions U+00BC..U+00BE, which are No).  Every character in
this set is accepted by the numeric filter of the source; only the ASCII digits
are accepted by `u64::from_str`. -/
def rustIsNumeric (c : Char) : Bool :=
  c.isDigit || (0x660 ≤ c.toNat && c.toNat ≤ 0x669) || (0xBC ≤ c.toNat && c.toNat ≤ 0xBE)

/-- Key codes used by the application (crossterm `KeyCode`; `Other` stands for
any further variant, none of which the dispatcher distinguishes). -/
inductive KeyCode where
  | Up
  | Down
  | Left
  | Right
  | Enter
  | Esc
  | Backspace
  | Delete
  | Char (c : Char)
  | Other
deriving DecidableEq

/-- crossterm `KeyEventKind`. -/
inductive KeyEventKind where
  | Press
  | Repeat
  | Release
deriving DecidableEq

/-- crossterm `KeyEvent` (modifiers are not inspected by the application). -/
structure KeyEvent where
  code : KeyCode
  kind : KeyEventKind
deriving DecidableEq

/-- `tui_input::Input`: an editable text buffer with a cursor measured in
characters. -/
structure Input where
  value : List Char
  cursor : Nat
deriving DecidableEq

/-- `Input::default()`: empty buffer, cursor at 0. -/
def Input.default : Input := { value := [], cursor := 0 }

/-- `Input::reset()`. -/
def Input.reset (_ : Input) : Input := Input.default

/-- `InputRequest::InsertChar`: insert before the cursor, cursor advances. -/
def Input.insertChar (inp : Input) (c : Char) : Input :=
  { value := inp.value.take inp.cursor ++ c :: inp.value.drop inp.cursor,
    cursor := inp.cursor + 1 }

/-- `InputRequest::DeletePrevChar` (Backspace). -/
def Input.deletePrevChar (inp : Input) : Input :=
  if inp.cursor = 0 then inp
  else
    { value := inp.value.take (inp.cursor - 1) ++ inp.value.drop inp.cursor,
      cursor := inp.cursor - 1 }

/-- `InputRequest::DeleteNextChar` (Delete). -/
def Input.deleteNextChar (inp : Input) : Input :=
  { inp with value := inp.value.take inp.cursor ++ inp.value.drop (inp.cursor + 1) }

/-- `InputRequest::GoToPrevChar` (Left): saturates at 0. -/
def Input.goToPrevChar (inp : Input) : Input :=
  { inp with cursor := inp.cursor - 1 }

/-- `InputRequest::GoToNextChar` (Right): saturates at the buffer length. -/
def Input.goToNextChar (inp : Input) : Input :=
  { inp with cursor := min (inp.cursor + 1) inp.value.length }

/-- `tui_input`'s crossterm backend `handle_event` for the key events this
application forwards (no modifier combinations are produced by the
dispatcher's call sites). -/
def Input.handleEvent (inp : Input) (k : KeyEvent) : Input :=
  match k.code with
  | KeyCode.Char c => inp.insertChar c
  | KeyCode.Backspace => inp.deletePrevChar
  | KeyCode.Delete => inp.deleteNextChar
  | KeyCode.Left => inp.goToPrevChar
  | KeyCode.Right => inp.goToNextChar
  | _ => inp

/-- `AddingModeSign` from the source. -/
inductive AddingModeSign where
  | Positive
  | Negative
deriving DecidableEq

/-- `InputMode` from the source: `Normal`, `NewCounter(Input)` (the spec's
CreatingCounter), `Adding(Input, AddingModeSign)` (the spec's
AdjustingCounter). -/
inductive InputMode where
  | Normal
  | NewCounter (input : Input)
  | Adding (input : Input) (sign : AddingModeSign)
deriving DecidableEq

/-- `Counter` from the source. -/
structure Counter where
  name : List Char
  count : Int
deriving DecidableEq

/-- `Counter::new`: user-supplied name, count initialized to 0. -/
def Counter.new (name : List Char) : Counter := { name := name, count := 0 }

/-- ratatui `ListState`, reduced to its `selected` field (the `offset` field
only affects scrolling during rendering and is never read by the
dispatcher). -/
structure ListState where
  selected : Option Nat
deriving DecidableEq

/-- `ListState::select`. -/
def ListState.select (st : ListState) (v : Option Nat) : ListState :=
  { st with selected := v }

/-- ratatui `ListState::select_next`: `selected.map_or(0, saturating_add 1)`. -/
def ListState.selectNext (st : ListState) : ListState :=
  { st with selected := some (match st.selected with
      | none => 0
      | some i => min (i + 1) USIZE_MAX) }

/-- ratatui `ListState::select_previous`:
`selected.map_or(usize::MAX, saturating_sub 1)`. -/
def ListState.selectPrevious (st : ListState) : ListState :=
  { st with selected := some (match st.selected with
      | none => USIZE_MAX
      | some i => i - 1) }

/-- `CounterList` from the source. -/
structure CounterList where
  counters : List Counter
  state : ListState
deriving DecidableEq

/-- `SaveState` from the source: an ephemeral session (`DoNotSave`) or a
session with a snapshot path. -/
inductive SaveState where
  | DoNotSave
  | Save (path : String)
deriving DecidableEq

/-- `App` from the source. -/
structure App where
  counter_list : CounterList
  input_mode : InputMode
  should_exit : Bool
  save_state : SaveState
deriving DecidableEq

/-- The counter list of an `App` (`self.counter_list.counters`). -/
def App.counters (s : App) : List Counter := s.counter_list.counters

/-- The selection of an `App` (`self.counter_list.state.selected()`). -/
def App.selected (s : App) : Option Nat := s.counter_list.state.selected

/-- Replace the list state. -/
def App.withState (s : App) (st : ListState) : App :=
  { s with counter_list := { s.counter_list with state := st } }

/-- Replace the counters. -/
def App.withCounters (s : App) (cs : List Counter) : App :=
  { s with counter_list := { s.counter_list with counters := cs } }

/-- Replace the input mode. -/
def App.withMode (s : App) (m : InputMode) : App :=
  { s with input_mode := m }

/-- `App::make_temporary`: ephemeral session. -/
def makeTemporary : App :=
  { counter_list := { counters := [], state := { selected := none } },
    input_mode := InputMode.Normal,
    should_exit := false,
    save_state := SaveState.DoNotSave }

/-- `App::save`, observably: an ephemeral session returns `Ok(())` at once and
attempts no write; a saved session attempts one write of the serialized
counter list to the snapshot path, with the outcome (`Ok` or the error text)
supplied by the environment.  `save` takes `&self` in the source, so it never
mutates the application state. -/
def saveApp (s : App) (r : Except String Unit) :
    Except String Unit × List (String × List Counter) :=
  match s.save_state with
  | SaveState.DoNotSave => (Except.ok (), [])
  | SaveState.Save p => (r, [(p, s.counters)])

/-- The increment / decrement of the selected counter from the `Normal` branch
of `handle_key` (`Right`/`l` and `Left`/`;`): mutate through `get_mut`, a no-op
when the selection is absent or out of range. -/
def adjustSelected (s : App) (delta : Int) : App :=
  match s.selected with
  | some i =>
    match s.counters[i]? with
    | some c => s.withCounters (s.counters.set i { c with count := i64Add c.count delta })
    | none => s
  | none => s

/-- The `match sign` statement of the `Adding` + Enter branch: the new count of
the selected counter, `count += value as i64` for `Positive` and
`count -= value as i64` for `Negative`. -/
def appliedCount (c : Int) (sg : AddingModeSign) (v : Nat) : Int :=
  match sg with
  | AddingModeSign.Positive => i64Add c (u64ToI64 v)
  | AddingModeSign.Negative => i64Sub c (u64ToI64 v)

/-- `App::handle_key`, split into the pure state transition plus a flag
recording whether the branch ends in `self.save()?`.  Returns `none` where the
source panics: `Vec::remove` with an out-of-range index in the `d` branch, and
`u64::from_str(...).expect(...)` on an unparseable buffer in the
`Adding` + Enter branch. -/
def handleKeyCore (s : App) (k : KeyEvent) : Option (App × Bool) :=
  if k.kind = KeyEventKind.Press then
    match s.input_mode with
    | InputMode.Normal =>
      match k.code with
      | KeyCode.Up => some (s.withState s.counter_list.state.selectPrevious, false)
      | KeyCode.Down => some (s.withState s.counter_list.state.selectNext, false)
      | KeyCode.Right => some (adjustSelected s 1, true)
      | KeyCode.Left => some (adjustSelected s (-1), true)
      | KeyCode.Esc => some (s.withState (s.counter_list.state.select none), false)
      | KeyCode.Char c =>
        match c with
        | 'k' => some (s.withState s.counter_list.state.selectPrevious, false)
        | 'j' => some (s.withState s.counter_list.state.selectNext, false)
        | 'l' => some (adjustSelected s 1, true)
        | ';' => some (adjustSelected s (-1), true)
        | 'q' => some ({ s with should_exit := true }, false)
        | 'n' => some (s.withMode (InputMode.NewCounter Input.default), false)
        | 'd' =>
          match s.selected with
          | some i =>
            if i < s.counters.length then
              some (s.withCounters (s.counters.eraseIdx i), true)
            else none
          | none => some (s, true)
        | 'a' => some (s.withMode (InputMode.Adding Input.default AddingModeSign.Positive), false)
        | 's' => some (s.withMode (InputMode.Adding Input.default AddingModeSign.Negative), false)
        | _ => some (s, false)
      | _ => some (s, false)
    | InputMode.NewCounter input =>
      match k.code with
      | KeyCode.Esc => some (s.withMode InputMode.Normal, false)
      | KeyCode.Enter =>
        some ((s.withCounters (s.counters ++ [Counter.new input.value])).withMode
          (InputMode.NewCounter input.reset), true)
      | _ => some (s.withMode (InputMode.NewCounter (input.handleEvent k)), false)
    | InputMode.Adding input sign =>
      match k.code with
      | KeyCode.Up => some (s.withState s.counter_list.state.selectPrevious, false)
      | KeyCode.Down => some (s.withState s.counter_list.state.selectNext, false)
      | KeyCode.Right | KeyCode.Left | KeyCode.Backspace =>
        some (s.withMode (InputMode.Adding (input.handleEvent k) sign), false)
      | KeyCode.Esc => some (s.withMode InputMode.Normal, false)
      | KeyCode.Enter =>
        match s.selected with
        | some i =>
          match s.counters[i]? with
          | some c =>
            match u64FromStr input.value with
            | some v =>
              some (((s.withCounters (s.counters.set i
                { c with count := appliedCount c.count sign v })).withMode
                (InputMode.Adding input.reset sign)), true)
            | none => none
          | none => some (s, false)
        | none => some (s, false)
      | KeyCode.Char c =>
        match c with
        | 'k' => some (s.withState s.counter_list.state.selectPrevious, false)
        | 'j' => some (s.withState s.counter_list.state.selectNext, false)
        | c =>
          if rustIsNumeric c then
            some (s.withMode (InputMode.Adding (input.handleEvent k) sign), false)
          else if c = 'a' then
            some (s.withMode (InputMode.Adding input AddingModeSign.Positive), false)
          else if c = 's' then
            some (s.withMode (InputMode.Adding input AddingModeSign.Negative), false)
          else some (s, false)
      | _ => some (s, false)
  else some (s, false)

/-- Outcome of one `handle_key` call: the mutated state, the returned
`anyhow::Result` (an error only ever originates from `self.save()?`), and the
write attempts made against the snapshot file. -/
structure StepResult where
  state : App
  result : Except String Unit
  writes : List (String × List Counter)
deriving DecidableEq

/-- `App::handle_key`: every branch mutates first and calls `self.save()?`
last (if at all), so the state stands regardless of the save outcome `r`. -/
def handleKey (s : App) (k : KeyEvent) (r : Except String Unit) : Option StepResult :=
  (handleKeyCore s k).map fun p =>
    if p.2 then
      { state := p.1, result := (saveApp p.1 r).1, writes := (saveApp p.1 r).2 }
    else
      { state := p.1, result := Except.ok (), writes := [] }

/-- Outcome of `App::run` over a finite prefix of the event stream. -/
inductive RunOutcome where
  | exited (s : App) (msg : String)
  | running (s : App) (msg : String)
  | crashed
deriving DecidableEq

/-- `App::run`: while the exit flag is unset, read the next key event,
dispatch it, and capture any dispatch error as the pending end message
(overwriting the previous one); when the flag is set, return `Ok(end_message)`.
Each event comes paired with the environment's response to a save attempt made
while handling it.  `running` marks an exhausted finite prefix with the loop
still blocked on input; `crashed` marks a panic inside `handle_key`.
Rendering (`terminal.draw`) is the external renderer and is not modelled. -/
def runLoop (s : App) (msg : String) : List (KeyEvent × Except String Unit) → RunOutcome
  | [] => if s.should_exit then RunOutcome.exited s msg else RunOutcome.running s msg
  | (k, r) :: rest =>
    if s.should_exit then RunOutcome.exited s msg
    else
      match handleKey s k r with
      | none => RunOutcome.crashed
      | some st =>
        runLoop st.state (match st.result with
          | Except.ok _ => msg
          | Except.error e => e) rest

/-- The persistence-independent part of an `App`: counters, selection, input
mode and exit flag (everything except the save target). -/
def App.core (s : App) : List Counter × Option Nat × InputMode × Bool :=
  (s.counters, s.selected, s.input_mode, s.should_exit)

/-- The `d` key as pressed. -/
def dKey : KeyEvent := { code := KeyCode.Char 'd', kind := KeyEventKind.Press }

/-- The Enter key as pressed. -/
def enterKey : KeyEvent := { code := KeyCode.Enter, kind := KeyEventKind.Press }

/-- The `q` key as pressed. -/
def qKey : KeyEvent := { code := KeyCode.Char 'q', kind := KeyEventKind.Press }

/-- Iterate the CreatingCounter Enter handler: for each name, put the machine
in `NewCounter` mode with that name in the buffer and press Enter (with a
succeeding save).  `none` would mean some press panicked. -/
def appendAll (s : App) (names : List (List Char)) : Option App :=
  names.foldlM (fun acc n =>
    (handleKey (acc.withMode (InputMode.NewCounter { value := n, cursor := n.length }))
      enterKey (Except.ok ())).map StepResult.state) s

theorem counters_withMode (s : App) (m : InputMode) : (s.withMode m).counters = s.counters := rfl

theorem counters_withCounters (s : App) (cs : List Counter) : (s.withCounters cs).counters = cs :=
  rfl

theorem counters_withState (s : App) (st : ListState) : (s.withState st).counters = s.counters :=
  rfl

theorem selected_withMode (s : App) (m : InputMode) : (s.withMode m).selected = s.selected := rfl

theorem selected_withCounters (s : App) (cs : List Counter) :
    (s.withCounters cs).selected = s.selected := rfl

theorem mode_withCounters (s : App) (cs : List Counter) :
    (s.withCounters cs).input_mode = s.input_mode := rfl

theorem mode_withMode (s : App) (m : InputMode) : (s.withMode m).input_mode = m := rfl

theorem save_state_withMode (s : App) (m : InputMode) :
    (s.withMode m).save_state = s.save_state := rfl

theorem save_state_withCounters (s : App) (cs : List Counter) :
    (s.withCounters cs).save_state = s.save_state := rfl

theorem save_state_withState (s : App) (st : ListState) :
    (s.withState st).save_state = s.save_state := rfl

/-- The state component of `handle_key`'s outcome does not depend on the save
outcome `r`: in the source, every branch mutates before `self.save()?`, and
`save` takes `&self`. -/
theorem handleKey_state (s : App) (k : KeyEvent) (r : Except String Unit) :
    (handleKey s k r).map StepResult.state = (handleKeyCore s k).map Prod.fst := by
  unfold handleKey
  cases handleKeyCore s k with
  | none => rfl
  | some p =>
    obtain ⟨s', b⟩ := p
    cases b <;> rfl

/-- `wrapI64` is the identity on the signed 64-bit range. -/
theorem wrapI64_eq_of_range (x : Int) (h1 : -(2 ^ 63) ≤ x) (h2 : x < 2 ^ 63) :
    wrapI64 x = x := by
  unfold wrapI64
  have hpow : (2 : Int) ^ 64 = 2 ^ 63 + 2 ^ 63 := by norm_num
  have h3 : (0 : Int) ≤ x + 2 ^ 63 := by linarith
  have h4 : x + 2 ^ 63 < 2 ^ 64 := by rw [hpow]; linarith
  rw [Int.emod_eq_of_lt h3 h4]
  ring

/-- `adjustSelected` is the identity when the selection is absent or out of
range (`get_mut` returns `None`). -/
theorem adjustSelected_invalid (s : App) (delta : Int)
    (h : ∀ i, s.selected = some i → s.counters.length ≤ i) :
    adjustSelected s delta = s := by
  unfold adjustSelected
  cases hs : s.selected with
  | none => rfl
  | some i =>
    have hg : s.counters[i]? = none := by
      rw [List.getElem?_eq_none_iff]
      exact h i hs
    simp [hg]

/-- Evaluation of `handle_key` on Enter in `NewCounter` mode: the buffer text
becomes a new counter with count 0 at the end of the list, the buffer resets,
the mode stays `NewCounter`, and a save is attempted. -/
theorem newCounterEnter_eq (s : App) (inp : Input) (r : Except String Unit)
    (h : s.input_mode = InputMode.NewCounter inp) :
    handleKey s enterKey r =
      some { state := (s.withCounters (s.counters ++ [Counter.new inp.value])).withMode
               (InputMode.NewCounter Input.default),
             result := (saveApp ((s.withCounters (s.counters ++ [Counter.new inp.value])).withMode
               (InputMode.NewCounter Input.default)) r).1,
             writes := (saveApp ((s.withCounters (s.counters ++ [Counter.new inp.value])).withMode
               (InputMode.NewCounter Input.default)) r).2 } := by
  simp [handleKey, handleKeyCore, enterKey, h, Input.reset]

/-- Evaluation of `handle_key` on Enter in `Adding` mode with a valid selection
and a parseable buffer: the signed delta is applied with wrapping `i64`
arithmetic, the buffer resets, the mode stays `Adding` with the same sign, and
a save is attempted. -/
theorem addingEnter_eq (s : App) (inp : Input) (sg : AddingModeSign) (r : Except String Unit)
    (i : Nat) (c : Counter) (v : Nat)
    (hm : s.input_mode = InputMode.Adding inp sg)
    (hs : s.selected = some i)
    (hc : s.counters[i]? = some c)
    (hv : u64FromStr inp.value = some v) :
    handleKey s enterKey r =
      some { state := (s.withCounters (s.counters.set i
               { c with count := appliedCount c.count sg v })).withMode
               (InputMode.Adding Input.default sg),
             result := (saveApp ((s.withCounters (s.counters.set i
               { c with count := appliedCount c.count sg v })).withMode
               (InputMode.Adding Input.default sg)) r).1,
             writes := (saveApp ((s.withCounters (s.counters.set i
               { c with count := appliedCount c.count sg v })).withMode
               (InputMode.Adding Input.default sg)) r).2 } := by
  simp [handleKey, handleKeyCore, enterKey, hm, hs, hc, hv, Input.reset]

/-- Evaluation of `handle_key` on Enter in `Adding` mode with no selection:
nothing happens at all (no parse, no mutation, no save). -/
theorem addingEnter_noSelection (s : App) (inp : Input) (sg : AddingModeSign)
    (r : Except String Unit)
    (hm : s.input_mode = InputMode.Adding inp sg) (hs : s.selected = none) :
    handleKey s enterKey r = some { state := s, result := Except.ok (), writes := [] } := by
  simp [handleKey, handleKeyCore, enterKey, hm, hs]

set_option maxHeartbeats 2000000 in
/-- `handle_key` never reads the save target while mutating: changing the
`save_state` field changes nothing of the transition except that the resulting
state carries the changed field. -/
theorem handleKeyCore_save_state (s : App) (k : KeyEvent) (ss : SaveState) :
    handleKeyCore { s with save_state := ss } k =
      (handleKeyCore s k).map (fun p => ({ p.1 with save_state := ss }, p.2)) := by
  obtain ⟨⟨cs, ⟨sel⟩⟩, im, ex, sv⟩ := s
  obtain ⟨code, kind⟩ := k
  cases kind <;> cases im <;> cases code <;>
    simp only [handleKeyCore, adjustSelected, App.withState, App.withCounters,
      App.withMode, App.selected, App.counters] <;>
    (repeat' split) <;> rfl

/-- The transition preserves the save target. -/
theorem handleKeyCore_preserves_save (s : App) (k : KeyEvent) (p : App × Bool)
    (h : handleKeyCore s k = some p) : p.1.save_state = s.save_state := by
  have heta : ({ s with save_state := s.save_state } : App) = s := rfl
  have hind := handleKeyCore_save_state s k s.save_state
  rw [heta, h] at hind
  simp only [Option.map_some'] at hind
  have hp := Option.some.inj hind
  have hq := congrArg (fun x : App × Bool => x.1.save_state) hp
  simpa using hq

/-- Evaluation of `handle_key` on `d` in `Normal` mode with no selection: the
state is untouched but a save is still attempted. -/
theorem deleteKey_noSelection (s : App) (r : Except String Unit)
    (hm : s.input_mode = InputMode.Normal) (hs : s.selected = none) :
    handleKey s dKey r =
      some { state := s, result := (saveApp s r).1, writes := (saveApp s r).2 } := by
  simp [handleKey, handleKeyCore, dKey, hm, hs]

/-- Evaluation of `handle_key` on `d` in `Normal` mode with an in-range
selection: the counter at the selected index is removed, the selection itself
is left as it was, and a save is attempted. -/
theorem deleteKey_valid (s : App) (r : Except String Unit) (i : Nat)
    (hm : s.input_mode = InputMode.Normal) (hs : s.selected = some i)
    (hlt : i < s.counters.length) :
    handleKey s dKey r =
      some { state := s.withCounters (s.counters.eraseIdx i),
             result := (saveApp (s.withCounters (s.counters.eraseIdx i)) r).1,
             writes := (saveApp (s.withCounters (s.counters.eraseIdx i)) r).2 } := by
  simp [handleKey, handleKeyCore, dKey, hm, hs, hlt]

/-- Evaluation of `handle_key` on `d` in `Normal` mode with an out-of-range
selection: `Vec::remove` panics. -/
theorem deleteKey_outOfRange (s : App) (r : Except String Unit) (i : Nat)
    (hm : s.input_mode = InputMode.Normal) (hs : s.selected = some i)
    (hge : s.counters.length ≤ i) :
    handleKey s dKey r = none := by
  simp [handleKey, handleKeyCore, dKey, hm, hs, Nat.not_lt.mpr hge]

/-- Claim C1 counterexample: pressing Enter in CreatingCounter mode appends
the counter, but the input mode does NOT return to Normal — it stays in
`NewCounter` (with the buffer reset); Normal is only reached via Escape.  The
state shown is an empty store with the buffer holding "Pushups". -/
theorem c1_counterexample :
    ∃ st, handleKey
        ⟨⟨[], ⟨none⟩⟩,
          InputMode.NewCounter ⟨['P', 'u', 's', 'h', 'u', 'p', 's'], 7⟩,
          false, SaveState.DoNotSave⟩
        enterKey (Except.ok ()) = some st ∧
      st.state.counters = [{ name := ['P', 'u', 's', 'h', 'u', 'p', 's'], count := 0 }] ∧
      st.state.input_mode ≠ InputMode.Normal := by
  refine ⟨_, rfl, by decide, by decide⟩

/-- Claim C1 (amended): when Enter is pressed in CreatingCounter mode, a new
counter named by the buffer text with count 0 is appended at the end, a
persistence request is made, the text buffer is reset — and the input mode
remains CreatingCounter with the empty buffer (it does not return to Normal;
Escape does that). -/
theorem c1_amended_enter_stays_creating (s : App) (inp : Input) (r : Except String Unit)
    (h : s.input_mode = InputMode.NewCounter inp) :
    ∃ st, handleKey s enterKey r = some st ∧
      st.state.counters = s.counters ++ [{ name := inp.value, count := 0 }] ∧
      st.state.input_mode = InputMode.NewCounter Input.default ∧
      st.state.selected = s.selected ∧
      st.state.should_exit = s.should_exit ∧
      (st.result, st.writes) = saveApp st.state r :=
  ⟨_, newCounterEnter_eq s inp r h, rfl, rfl, rfl, rfl, rfl⟩

/-- Claim C1 witness: the amended statement evaluated on a one-counter saved
session with "hi" in the buffer. -/
theorem c1_witness :
    ∃ st, handleKey
        ⟨⟨[{ name := ['z'], count := 3 }], ⟨some 0⟩⟩,
          InputMode.NewCounter ⟨['h', 'i'], 2⟩, false, SaveState.Save "f"⟩
        enterKey (Except.ok ()) = some st ∧
      st.state.counters =
        [{ name := ['z'], count := 3 }] ++ [{ name := ['h', 'i'], count := 0 }] ∧
      st.state.input_mode = InputMode.NewCounter Input.default ∧
      st.state.selected = some 0 ∧
      st.state.should_exit = false ∧
      (st.result, st.writes) = saveApp st.state (Except.ok ()) :=
  c1_amended_enter_stays_creating
    ⟨⟨[{ name := ['z'], count := 3 }], ⟨some 0⟩⟩,
      InputMode.NewCounter ⟨['h', 'i'], 2⟩, false, SaveState.Save "f"⟩
    ⟨['h', 'i'], 2⟩ (Except.ok ()) rfl

/-- Claim C2 (code bug): pressing Enter in AdjustingCounter mode with an EMPTY
buffer and a valid selection makes `u64::from_str("")` fail and the `.expect`
panic — the program crashes instead of treating the empty buffer as a no-op.
The embedding returns `none` exactly where the source panics. -/
theorem c2_empty_buffer_enter_panics :
    handleKey
      ⟨⟨[{ name := ['P'], count := 2 }], ⟨some 0⟩⟩,
        InputMode.Adding Input.default AddingModeSign.Positive,
        false, SaveState.DoNotSave⟩
      enterKey (Except.ok ()) = none := by decide

/-- Claim C3 counterexample: Enter in AdjustingCounter mode applies the delta
(count 2 plus buffer "10" gives 12) but the input mode does NOT return to
Normal — it stays `Adding` with the buffer reset. -/
theorem c3_counterexample :
    ∃ st, handleKey
        ⟨⟨[{ name := ['P'], count := 2 }], ⟨some 0⟩⟩,
          InputMode.Adding ⟨['1', '0'], 2⟩ AddingModeSign.Positive,
          false, SaveState.DoNotSave⟩
        enterKey (Except.ok ()) = some st ∧
      st.state.counters.map Counter.count = [12] ∧
      st.state.input_mode ≠ InputMode.Normal := by
  refine ⟨_, rfl, by decide, by decide⟩

/-- Claim C3 (amended): Enter in AdjustingCounter mode with a selected counter
and parseable buffer value v changes the selected count by +v (Positive) or -v
(Negative) in wrapping two's-complement 64-bit arithmetic — exactly +v / -v
whenever the operands and result stay in the i64 range — makes a persistence
request, resets the buffer, and the mode remains AdjustingCounter with the
same sign; with no selection the store is unchanged (and no save happens). -/
theorem c3_amended_adjust_apply :
    (∀ s inp sg r i c v, s.input_mode = InputMode.Adding inp sg → s.selected = some i →
      s.counters[i]? = some c → u64FromStr inp.value = some v →
      ∃ st, handleKey s enterKey r = some st ∧
        st.state.counters = s.counters.set i { c with count := appliedCount c.count sg v } ∧
        st.state.input_mode = InputMode.Adding Input.default sg ∧
        (st.result, st.writes) = saveApp st.state r) ∧
    (∀ s inp sg r, s.input_mode = InputMode.Adding inp sg → s.selected = none →
      handleKey s enterKey r = some { state := s, result := Except.ok (), writes := [] }) ∧
    (∀ (a : Int) (v : Nat), v < 2 ^ 63 → -(2 ^ 63) ≤ a + (v : Int) → a + (v : Int) < 2 ^ 63 →
      appliedCount a AddingModeSign.Positive v = a + (v : Int)) ∧
    (∀ (a : Int) (v : Nat), v < 2 ^ 63 → -(2 ^ 63) ≤ a - (v : Int) → a - (v : Int) < 2 ^ 63 →
      appliedCount a AddingModeSign.Negative v = a - (v : Int)) := by
  refine ⟨fun s inp sg r i c v hm hs hc hv =>
      ⟨_, addingEnter_eq s inp sg r i c v hm hs hc hv, rfl, rfl, rfl⟩,
    fun s inp sg r hm hs => addingEnter_noSelection s inp sg r hm hs,
    fun a v hv h1 h2 => ?_, fun a v hv h1 h2 => ?_⟩
  · have hcast : u64ToI64 v = (v : Int) := by
      unfold u64ToI64
      rw [if_pos hv]
    simp only [appliedCount, i64Add, hcast]
    exact wrapI64_eq_of_range _ h1 h2
  · have hcast : u64ToI64 v = (v : Int) := by
      unfold u64ToI64
      rw [if_pos hv]
    simp only [appliedCount, i64Sub, hcast]
    exact wrapI64_eq_of_range _ h1 h2

/-- Claim C3 witness: the spec's scenario, count 2 with buffer "10" and sign
Positive, evaluated through the amended statement: the count becomes 12. -/
theorem c3_witness :
    ∃ st, handleKey
        ⟨⟨[{ name := ['P'], count := 2 }], ⟨some 0⟩⟩,
          InputMode.Adding ⟨['1', '0'], 2⟩ AddingModeSign.Negative,
          false, SaveState.DoNotSave⟩
        enterKey (Except.ok ()) = some st ∧
      st.state.counters = [{ name := ['P'], count := 2 }].set 0
        { name := ['P'], count := appliedCount 2 AddingModeSign.Negative 10 } ∧
      st.state.input_mode = InputMode.Adding Input.default AddingModeSign.Negative ∧
      (st.result, st.writes) = saveApp st.state (Except.ok ()) :=
  c3_amended_adjust_apply.1
    ⟨⟨[{ name := ['P'], count := 2 }], ⟨some 0⟩⟩,
      InputMode.Adding ⟨['1', '0'], 2⟩ AddingModeSign.Negative,
      false, SaveState.DoNotSave⟩
    ⟨['1', '0'], 2⟩ AddingModeSign.Negative (Except.ok ()) 0
    { name := ['P'], count := 2 } 10 rfl rfl rfl (by decide)

/-- Claim C4 (confirmed): in Normal mode, the increment and decrement commands
(Right / `l`, Left / `;`) with an absent or out-of-range selection leave the
whole state — in particular the counter list — unchanged and raise no error
(the source still attempts its usual save of the unchanged list). -/
theorem c4_adjust_invalid_noop (s : App) (k : KeyEvent) (r : Except String Unit)
    (hm : s.input_mode = InputMode.Normal) (hk : k.kind = KeyEventKind.Press)
    (hcode : k.code = KeyCode.Right ∨ k.code = KeyCode.Char 'l' ∨
      k.code = KeyCode.Left ∨ k.code = KeyCode.Char ';')
    (hsel : ∀ i, s.selected = some i → s.counters.length ≤ i) :
    handleKey s k r =
      some { state := s, result := (saveApp s r).1, writes := (saveApp s r).2 } := by
  obtain ⟨code, kind⟩ := k
  simp only at hk hcode
  subst hk
  have hadj1 := adjustSelected_invalid s 1 hsel
  have hadj2 := adjustSelected_invalid s (-1) hsel
  rcases hcode with h | h | h | h <;> subst h <;>
    simp [handleKey, handleKeyCore, hm, hadj1, hadj2]

/-- Claim C4 witness: incrementing with selection index 5 on an empty list is
a no-op that still succeeds. -/
theorem c4_witness :
    handleKey ⟨⟨[], ⟨some 5⟩⟩, InputMode.Normal, false, SaveState.DoNotSave⟩
        ⟨KeyCode.Right, KeyEventKind.Press⟩ (Except.ok ()) =
      some { state := ⟨⟨[], ⟨some 5⟩⟩, InputMode.Normal, false, SaveState.DoNotSave⟩,
             result := Except.ok (), writes := [] } :=
  c4_adjust_invalid_noop _ _ _ rfl rfl (Or.inl rfl)
    (fun i hi => by cases hi; decide)

/-- Claim C5 counterexample: deleting the only counter while it is selected
leaves the selection at index 0 over an empty list — the key handler does not
re-validate the selection, so the 'selection is always a valid index'
invariant is not preserved. -/
theorem c5_counterexample :
    ∃ st, handleKey
        ⟨⟨[{ name := ['a'], count := 0 }], ⟨some 0⟩⟩,
          InputMode.Normal, false, SaveState.DoNotSave⟩
        dKey (Except.ok ()) = some st ∧
      st.state.counters = [] ∧
      st.state.selected = some 0 := by
  refine ⟨_, rfl, by decide, by decide⟩

/-- Claim C5 (amended): the `d` handler never re-validates the selection.
With no selection it is a no-op (no error, list unchanged, save still
attempted); with an in-range selection it removes that counter but leaves the
selection index unchanged, which may then point past the end of the shrunken
list; with an out-of-range selection `Vec::remove` panics rather than being
ignored. -/
theorem c5_amended_delete_behavior :
    (∀ s r, s.input_mode = InputMode.Normal → s.selected = none →
      handleKey s dKey r =
        some { state := s, result := (saveApp s r).1, writes := (saveApp s r).2 }) ∧
    (∀ s r i, s.input_mode = InputMode.Normal → s.selected = some i →
      i < s.counters.length →
      ∃ st, handleKey s dKey r = some st ∧
        st.state.counters = s.counters.eraseIdx i ∧
        st.state.selected = some i) ∧
    (∀ s r i, s.input_mode = InputMode.Normal → s.selected = some i →
      s.counters.length ≤ i → handleKey s dKey r = none) := by
  refine ⟨fun s r hm hs => deleteKey_noSelection s r hm hs,
    fun s r i hm hs hlt =>
      ⟨_, deleteKey_valid s r i hm hs hlt, rfl, (selected_withCounters s _).trans hs⟩,
    fun s r i hm hs hge => deleteKey_outOfRange s r i hm hs hge⟩

/-- Claim C5 witness: deleting with no selection on a one-counter store is a
no-op that still succeeds. -/
theorem c5_witness :
    handleKey ⟨⟨[{ name := ['a'], count := 0 }], ⟨none⟩⟩,
        InputMode.Normal, false, SaveState.DoNotSave⟩ dKey (Except.ok ()) =
      some { state := ⟨⟨[{ name := ['a'], count := 0 }], ⟨none⟩⟩,
               InputMode.Normal, false, SaveState.DoNotSave⟩,
             result := Except.ok (), writes := [] } :=
  c5_amended_delete_behavior.1 _ _ rfl rfl

/-- Claim C6 (confirmed): a sequence of CreatingCounter Enter presses never
fails, produces a counter list of length equal to the number of presses plus
what was already there, keeps the order of the presses, and gives each new
counter count 0. -/
theorem c6_append_sequence (s : App) (names : List (List Char)) :
    ∃ s', appendAll s names = some s' ∧
      s'.counters = s.counters ++ names.map (fun n => { name := n, count := 0 }) ∧
      s'.counters.length = s.counters.length + names.length := by
  induction names generalizing s with
  | nil => exact ⟨s, rfl, by simp [appendAll], by simp [appendAll]⟩
  | cons n ns ih =>
    have hstep := newCounterEnter_eq
      (s.withMode (InputMode.NewCounter ⟨n, n.length⟩)) ⟨n, n.length⟩ (Except.ok ()) rfl
    obtain ⟨s', h1, h2, h3⟩ := ih
      (((s.withMode (InputMode.NewCounter ⟨n, n.length⟩)).withCounters
        ((s.withMode (InputMode.NewCounter ⟨n, n.length⟩)).counters ++
          [Counter.new n])).withMode (InputMode.NewCounter Input.default))
    refine ⟨s', ?_, ?_, ?_⟩
    · simp only [appendAll, List.foldlM_cons] at h1 ⊢
      rw [hstep]
      simpa using h1
    · rw [h2]
      simp [App.counters, App.withCounters, App.withMode, Counter.new]
    · rw [h3]
      simp [App.counters, App.withCounters, App.withMode]
      omega

/-- Claim C7 (confirmed): when a save during dispatch fails, the in-memory
mutation still stands (the state is the same as with a successful save), the
loop does not stop — it continues into the rest of the event stream carrying
the captured error text as the pending end message (a later error overwrites
it, a success leaves it) — and once the exit flag is set the loop returns the
pending message as its final value without touching further events. -/
theorem c7_save_failure_nonfatal (s : App) (k : KeyEvent) (e : String) (st : StepResult)
    (h : handleKey s k (Except.error e) = some st) (hx : s.should_exit = false) :
    (∃ st', handleKey s k (Except.ok ()) = some st' ∧ st'.state = st.state) ∧
    (∀ msg rest, runLoop s msg ((k, Except.error e) :: rest) =
        runLoop st.state (match st.result with
          | Except.ok _ => msg
          | Except.error e' => e') rest) ∧
    (∀ s' msg evs, s'.should_exit = true → runLoop s' msg evs = RunOutcome.exited s' msg) := by
  refine ⟨?_, ?_, ?_⟩
  · have h1 := handleKey_state s k (Except.error e)
    have h2 := handleKey_state s k (Except.ok ())
    have h12 : (handleKey s k (Except.ok ())).map StepResult.state = some st.state := by
      rw [h2, ← h1, h, Option.map_some']
    cases h3 : handleKey s k (Except.ok ()) with
    | none => rw [h3] at h12; simp at h12
    | some st' =>
      rw [h3, Option.map_some'] at h12
      exact ⟨st', rfl, Option.some.inj h12⟩
  · intro msg rest
    simp [runLoop, hx, h]
  · intro s' msg evs hexit
    cases evs <;> simp [runLoop, hexit]

/-- Claim C7 witness: incrementing the selected counter of a saved session
while the disk write fails with "boom". -/
theorem c7_witness :
    ∃ st', handleKey
        ⟨⟨[{ name := ['x'], count := 0 }], ⟨some 0⟩⟩,
          InputMode.Normal, false, SaveState.Save "p"⟩
        ⟨KeyCode.Right, KeyEventKind.Press⟩ (Except.ok ()) = some st' ∧
      st'.state = ⟨⟨[{ name := ['x'], count := 1 }], ⟨some 0⟩⟩,
        InputMode.Normal, false, SaveState.Save "p"⟩ :=
  (c7_save_failure_nonfatal
    ⟨⟨[{ name := ['x'], count := 0 }], ⟨some 0⟩⟩,
      InputMode.Normal, false, SaveState.Save "p"⟩
    ⟨KeyCode.Right, KeyEventKind.Press⟩ "boom"
    ⟨⟨⟨[{ name := ['x'], count := 1 }], ⟨some 0⟩⟩,
        InputMode.Normal, false, SaveState.Save "p"⟩,
      Except.error "boom",
      [("p", [{ name := ['x'], count := 1 }])]⟩
    (by decide) rfl).1

/-- Claim C8 (confirmed): an ephemeral session (`make_temporary`) has no save
target; `save` on such a session is a no-op returning success with no write
attempt; the state transition of every key is identical whatever the save
target or save outcome (so mutating commands behave exactly as in a saved
session); and in an ephemeral session every dispatch returns success and
writes nothing. -/
theorem c8_ephemeral_session :
    makeTemporary.save_state = SaveState.DoNotSave ∧
    (∀ s r, s.save_state = SaveState.DoNotSave → saveApp s r = (Except.ok (), [])) ∧
    (∀ s k ss r r',
      (handleKey s k r).map (fun st => st.state.core) =
        (handleKey { s with save_state := ss } k r').map (fun st => st.state.core)) ∧
    (∀ s k r st, s.save_state = SaveState.DoNotSave → handleKey s k r = some st →
      st.result = Except.ok () ∧ st.writes = []) := by
  refine ⟨rfl, ?_, ?_, ?_⟩
  · intro s r hd
    unfold saveApp
    rw [hd]
  · intro s k ss r r'
    have h1 := handleKey_state s k r
    have h2 := handleKey_state { s with save_state := ss } k r'
    have h3 := handleKeyCore_save_state s k ss
    calc (handleKey s k r).map (fun st => st.state.core)
        = ((handleKey s k r).map StepResult.state).map App.core := by
          rw [Option.map_map]; rfl
      _ = ((handleKeyCore s k).map Prod.fst).map App.core := by rw [h1]
      _ = ((handleKeyCore { s with save_state := ss } k).map Prod.fst).map App.core := by
          rw [h3]; cases handleKeyCore s k <;> rfl
      _ = ((handleKey { s with save_state := ss } k r').map StepResult.state).map App.core := by
          rw [h2]
      _ = (handleKey { s with save_state := ss } k r').map (fun st => st.state.core) := by
          rw [Option.map_map]; rfl
  · intro s k r st hd hsome
    unfold handleKey at hsome
    cases hcore : handleKeyCore s k with
    | none => rw [hcore] at hsome; simp at hsome
    | some p =>
      obtain ⟨s0, b⟩ := p
      rw [hcore, Option.map_some'] at hsome
      have hps : s0.save_state = SaveState.DoNotSave := by
        have hpr := handleKeyCore_preserves_save s k ⟨s0, b⟩ hcore
        simpa [hd] using hpr
      have hsave : saveApp s0 r = (Except.ok (), []) := by
        unfold saveApp
        rw [hps]
      cases b <;> simp only [Bool.false_eq_true, if_false, if_true, reduceIte,
          Option.some.injEq] at hsome <;> rw [← hsome] <;> simp [hsave]

/-- Claim C8 witness: saving an ephemeral session with a failing environment
still reports success and writes nothing. -/
theorem c8_witness :
    saveApp makeTemporary (Except.error "disk full") = (Except.ok (), []) :=
  c8_ephemeral_session.2.1 makeTemporary (Except.error "disk full") rfl

/-- Claim C9 (confirmed): pressing `q` in Normal mode only sets the exit flag
(no store mutation, no save), and the loop then returns immediately: whatever
events remain in the stream are never processed, the final state being exactly
the pre-`q` state with the flag set. -/
theorem c9_quit_terminates (s : App) (r : Except String Unit)
    (hm : s.input_mode = InputMode.Normal) (hx : s.should_exit = false) :
    handleKey s qKey r =
      some { state := { s with should_exit := true },
             result := Except.ok (), writes := [] } ∧
    ∀ msg evs, runLoop s msg ((qKey, r) :: evs) =
      RunOutcome.exited { s with should_exit := true } msg := by
  have hk : handleKey s qKey r =
      some { state := { s with should_exit := true },
             result := Except.ok (), writes := [] } := by
    simp [handleKey, handleKeyCore, qKey, hm]
  refine ⟨hk, fun msg evs => ?_⟩
  cases evs <;> simp [runLoop, hx, hk]

/-- Claim C9 witness: quitting a fresh ephemeral session with one more event
queued behind the `q`. -/
theorem c9_witness :
    handleKey makeTemporary qKey (Except.ok ()) =
      some { state := { makeTemporary with should_exit := true },
             result := Except.ok (), writes := [] } :=
  (c9_quit_terminates makeTemporary (Except.ok ()) rfl rfl).1

/-- Claim C10 (confirmed): entering a value v with 2^63 ≤ v < 2^64 in
AdjustingCounter mode with sign Positive applies the two's-complement
reinterpretation of v — the negative number v - 2^64 — to the selected count
under wrapping 64-bit arithmetic, so whenever no wrap-around occurs the count
strictly decreases. -/
theorem c10_twos_complement (s : App) (inp : Input) (r : Except String Unit)
    (i : Nat) (c : Counter) (v : Nat)
    (hm : s.input_mode = InputMode.Adding inp AddingModeSign.Positive)
    (hs : s.selected = some i) (hc : s.counters[i]? = some c)
    (hv : u64FromStr inp.value = some v) (hlo : 2 ^ 63 ≤ v) (hhi : v < 2 ^ 64) :
    u64ToI64 v = (v : Int) - 2 ^ 64 ∧
    u64ToI64 v < 0 ∧
    ∃ st, handleKey s enterKey r = some st ∧
      st.state.counters = s.counters.set i
        { c with count := wrapI64 (c.count + ((v : Int) - 2 ^ 64)) } ∧
      (-(2 ^ 63) ≤ c.count + ((v : Int) - 2 ^ 64) → c.count < 2 ^ 63 →
        wrapI64 (c.count + ((v : Int) - 2 ^ 64)) < c.count) := by
  have hviZ : (2 : Int) ^ 63 ≤ (v : Int) := by exact_mod_cast hlo
  have hhiZ : (v : Int) < 2 ^ 64 := by exact_mod_cast hhi
  have hcast : u64ToI64 v = (v : Int) - 2 ^ 64 := by
    unfold u64ToI64
    rw [if_neg (Nat.not_lt.mpr hlo)]
  have hneg : u64ToI64 v < 0 := by
    rw [hcast]
    linarith
  refine ⟨hcast, hneg, ?_⟩
  refine ⟨_, addingEnter_eq s inp AddingModeSign.Positive r i c v hm hs hc hv, ?_, ?_⟩
  · simp only [App.counters, App.withCounters, App.withMode, appliedCount, i64Add, hcast]
  · intro h1 h2
    have hsum : c.count + ((v : Int) - 2 ^ 64) < 2 ^ 63 := by
      have : (v : Int) - 2 ^ 64 < 0 := by linarith
      linarith
    rw [wrapI64_eq_of_range _ h1 hsum]
    have : (v : Int) - 2 ^ 64 ≤ -1 := by linarith
    linarith

/-- Claim C10 witness: the boundary value 9223372036854775808 (2^63) is
reinterpreted as the most negative i64. -/
theorem c10_witness :
    u64ToI64 9223372036854775808 = (9223372036854775808 : Int) - 2 ^ 64 :=
  (c10_twos_complement
    ⟨⟨[{ name := ['x'], count := 5 }], ⟨some 0⟩⟩,
      InputMode.Adding
        ⟨['9', '2', '2', '3', '3', '7', '2', '0', '3', '6', '8', '5', '4', '7', '7', '5',
          '8', '0', '8'], 19⟩ AddingModeSign.Positive,
      false, SaveState.DoNotSave⟩
    ⟨['9', '2', '2', '3', '3', '7', '2', '0', '3', '6', '8', '5', '4', '7', '7', '5',
      '8', '0', '8'], 19⟩
    (Except.ok ()) 0 { name := ['x'], count := 5 } 9223372036854775808
    rfl rfl rfl (by decide) (by decide) (by decide)).1

end TuiCounters
